import Mathlib

/-
  Shallow embedding of the task_manager repository (Django app).
  Source files embedded here:
    task_manager/models.py        (User, UserManager, Task, serializers)
    task_manager/view/user.py     (UserView.put)
    task_manager/view/task.py     (TaskView.put, TaskView.post, UserTasksView.get,
                                   CustomPagination)
  The persistence layer (Django ORM over a relational store) is modelled as an
  explicit state `DB`: a list of user rows, a list of task rows in insertion
  order, and the many-to-many association table as a list of (task id, user id)
  pairs.  Framework collaborators that the views call into (BaseUserManager.
  normalize_email, django_paginator / DRF PageNumberPagination, Http404 from
  get_object_or_404) are embedded with their library semantics.
-/

namespace TaskManager

/-- A User row: fields of the custom User model in models.py (name, email,
phone, date_joined, updated_date, is_admin, is_staff, is_active,
is_superadmin), plus the generated numeric id and the password hash column
contributed by AbstractBaseUser and written by set_password. -/
structure User where
  id : Nat
  name : String
  email : String
  phone : String
  password : String
  date_joined : Nat
  updated_date : Nat
  is_admin : Bool
  is_staff : Bool
  is_active : Bool
  is_superadmin : Bool
  deriving Repr, DecidableEq

/-- The dictionary returned by User.user_serializer in models.py: every model
field except the password hash. -/
structure UserRecord where
  id : Nat
  name : String
  email : String
  phone : String
  date_joined : Nat
  updated_date : Nat
  is_admin : Bool
  is_staff : Bool
  is_active : Bool
  is_superadmin : Bool
  deriving Repr, DecidableEq

/-- models.py User.user_serializer. -/
def User.user_serializer (u : User) : UserRecord :=
  { id := u.id
    name := u.name
    email := u.email
    phone := u.phone
    date_joined := u.date_joined
    updated_date := u.updated_date
    is_admin := u.is_admin
    is_staff := u.is_staff
    is_active := u.is_active
    is_superadmin := u.is_superadmin }

/-- A Task row: fields of the Task model in models.py.  task_type and status
are CharFields (the choices lists are not enforced by Task.objects.create), so
they are strings here.  created_at is auto_now_add; timestamps are modelled as
naturals. -/
structure Task where
  id : Nat
  name : String
  description : String
  created_at : Nat
  task_type : String
  completed_at : Option Nat
  status : String
  deriving Repr, DecidableEq

/-- The dictionary returned by Task.task_serializer in models.py:
id, name, description, created_at, completed_at, status — and nothing else
(task_type and assigned_users are not included). -/
structure TaskRecord where
  id : Nat
  name : String
  description : String
  created_at : Nat
  completed_at : Option Nat
  status : String
  deriving Repr, DecidableEq

/-- models.py Task.task_serializer. -/
def Task.task_serializer (t : Task) : TaskRecord :=
  { id := t.id
    name := t.name
    description := t.description
    created_at := t.created_at
    completed_at := t.completed_at
    status := t.status }

/-- The persistence layer: user rows, task rows in insertion order, and the
assigned_users many-to-many table as (task id, user id) pairs.  next_user_id /
next_task_id model the auto-generated primary keys; now models the database
clock used for auto_now_add columns. -/
structure DB where
  users : List User
  tasks : List Task
  assigned : List (Nat × Nat)
  next_user_id : Nat
  next_task_id : Nat
  now : Nat
  deriving Repr, DecidableEq

/- ----------------------------------------------------------------- -/
/- User service: UserManager (models.py) and UserView (view/user.py) -/
/- ----------------------------------------------------------------- -/

/-- Helper for normalize_email: split a character list at its LAST occurrence
of the at sign, like str.rsplit with maxsplit 1. -/
def rsplitAtSign : List Char → Option (List Char × List Char)
  | [] => none
  | c :: rest =>
    match rsplitAtSign rest with
    | some (a, b) => some (c :: a, b)
    | none => if c = '@' then some ([], rest) else none

/-- Drop leading whitespace characters, as Python str.strip does at either
end. -/
def dropLeadingWS : List Char → List Char
  | [] => []
  | c :: r => if c.isWhitespace then dropLeadingWS r else c :: r

/-- Python str.strip: remove whitespace from both ends. -/
def pyStrip (s : String) : String :=
  String.mk (dropLeadingWS (dropLeadingWS s.data).reverse).reverse

/-- Django BaseUserManager.normalize_email: strip surrounding whitespace, split
at the last at sign and lowercase the domain part; if there is no at sign the
email is returned as passed in. -/
def normalize_email (email : String) : String :=
  match rsplitAtSign (pyStrip email).data with
  | some (nm, dom) => String.mk (nm ++ '@' :: dom.map Char.toLower)
  | none => email

/-- AbstractBaseUser.set_password: salted hashing is an external collaborator;
modelled as an injective tagging of the plaintext, standing for the stored
hash.  No claim depends on its internals. -/
def set_password (plain : String) : String :=
  "pbkdf2_sha256$" ++ plain

/-- The database error raised by user.save() when the unique email constraint
is violated: MySQL IntegrityError whose text starts with Duplicate entry.  The
view only tests whether that marker is present, so the error is modelled
structurally, carrying the offending email. -/
inductive SaveErr where
  | duplicateEntry (email : String)
  deriving Repr, DecidableEq

/-- Errors create_user can raise: the explicit ValueError for an empty email,
or the IntegrityError propagated from save(). -/
inductive CreateUserErr where
  | valueError (msg : String)
  | integrityError (e : SaveErr)
  deriving Repr, DecidableEq

/-- user.save(using=self._db) for a new row: the storage layer enforces the
unique email constraint (models.py line 83, unique=True) and otherwise appends
the row and advances the id sequence. -/
def saveUser (db : DB) (u : User) : Except SaveErr (DB × User) :=
  if db.users.any (fun x => x.email == u.email) then
    .error (.duplicateEntry u.email)
  else
    .ok ({ db with users := db.users ++ [u], next_user_id := db.next_user_id + 1 }, u)

/-- models.py UserManager.create_user: reject an empty email with ValueError,
normalize the email, build the row with default flags, hash the password and
save. -/
def UserManager.create_user (db : DB) (name email phone password : String) :
    Except CreateUserErr (DB × User) :=
  if email = "" then
    .error (.valueError "Email field cannot be empty")
  else
    let user : User :=
      { id := db.next_user_id
        name := name
        email := normalize_email email
        phone := phone
        password := set_password password
        date_joined := db.now
        updated_date := db.now
        is_admin := false
        is_staff := false
        is_active := true
        is_superadmin := false }
    match saveUser db user with
    | .error e => .error (.integrityError e)
    | .ok r => .ok r

/-- user.save() on an existing row: update in place. -/
def updateUser (db : DB) (u : User) : DB :=
  { db with users := db.users.map (fun x => if x.id == u.id then u else x) }

/-- models.py UserManager.create_superuser: create_user, then set the three
admin flags and save again. -/
def UserManager.create_superuser (db : DB) (name email phone password : String) :
    Except CreateUserErr (DB × User) :=
  match UserManager.create_user db name email phone password with
  | .error e => .error e
  | .ok (db1, user) =>
    let user2 := { user with is_admin := true, is_staff := true, is_superadmin := true }
    .ok (updateUser db1 user2, user2)

/-- The JSON body accepted by PUT /user/ (view/user.py): name, email, phone,
password, and the truthiness of the optional is_admin flag. -/
structure UserData where
  name : String
  email : String
  phone : String
  password : String
  is_admin : Bool
  deriving Repr, DecidableEq

/-- Responses of UserView.put: 201 with the serialized user, 409 when the
IntegrityError text contains the Duplicate entry marker, 500 for any other
exception (including the ValueError for an empty email, swallowed by the
blanket handler). -/
inductive UserViewResult where
  | created (rec : UserRecord)
  | conflict
  | serverError (msg : String)
  deriving Repr, DecidableEq

/-- HTTP status attached to each UserView.put outcome in view/user.py. -/
def UserViewResult.httpStatus : UserViewResult → Nat
  | .created _ => 201
  | .conflict => 409
  | .serverError _ => 500

/-- view/user.py UserView.put: dispatch on is_admin to create_superuser or
create_user, serialize on success; IntegrityError with the Duplicate entry
marker maps to 409, any other exception to 500 with its message. -/
def UserView.put (db : DB) (data : UserData) : DB × UserViewResult :=
  let r :=
    if data.is_admin then
      UserManager.create_superuser db data.name data.email data.phone data.password
    else
      UserManager.create_user db data.name data.email data.phone data.password
  match r with
  | .ok (db1, user) => (db1, .created user.user_serializer)
  | .error (.integrityError (.duplicateEntry _)) => (db, .conflict)
  | .error (.valueError msg) => (db, .serverError msg)

/- ----------------------------------------------------------------- -/
/- Task service: TaskView and UserTasksView (view/task.py)           -/
/- ----------------------------------------------------------------- -/

/-- task.assigned_users.add for one user: the many-to-many table ignores a
duplicate (task, user) pair, otherwise inserts it. -/
def addPair (a : List (Nat × Nat)) (t u : Nat) : List (Nat × Nat) :=
  if (t, u) ∈ a then a else a ++ [(t, u)]

/-- task.assigned_users.add(*users): insert each (task, user) pair in turn,
skipping pairs already present. -/
def addAssignments (db : DB) (t : Nat) (uids : List Nat) : DB :=
  { db with assigned := uids.foldl (fun a u => addPair a t u) db.assigned }

/-- task.assigned_users.values_list with flat id output: the user ids
associated to a task in the many-to-many table, in table order. -/
def DB.assignedIds (db : DB) (t : Nat) : List Nat :=
  (db.assigned.filter (fun p => p.1 == t)).map (fun p => p.2)

/-- The user_id field of the PUT /task/ body after the view has coerced it:
either a single id (int or numeric string in the request) or a collection of
ids. -/
inductive UserIdField where
  | single (v : Nat)
  | many (vs : List Nat)
  deriving Repr, DecidableEq

/-- view/task.py line 62: wrap a scalar user_id into a one-element list, keep
a collection as is (each element already coerced to an integer by line 65). -/
def coerceUserIds : UserIdField → List Nat
  | .single v => [v]
  | .many vs => vs

/-- The JSON body accepted by PUT /task/: required name, description and
task_type, optional status (defaulting to Pending) and optional user_id. -/
structure CreateTaskData where
  name : String
  description : String
  task_type : String
  status : Option String
  user_id : Option UserIdField
  deriving Repr, DecidableEq

/-- Responses of TaskView.put: 201 with the serialized task and the assigned
user id list, or the 400 Users-not-found response carrying the missing ids. -/
inductive CreateTaskResult where
  | created (rec : TaskRecord) (assigned_user_ids : List Nat)
  | usersNotFound (missing_ids : List Nat)
  deriving Repr, DecidableEq

/-- HTTP status attached to each TaskView.put outcome in view/task.py. -/
def CreateTaskResult.httpStatus : CreateTaskResult → Nat
  | .created _ _ => 201
  | .usersNotFound _ => 400

/-- The Task row built by Task.objects.create at view/task.py lines 53 to 58:
fresh id, request fields, status defaulting to Pending, created_at stamped by
auto_now_add, completed_at unset. -/
def newTaskOf (db : DB) (data : CreateTaskData) : Task :=
  { id := db.next_task_id
    name := data.name
    description := data.description
    created_at := db.now
    task_type := data.task_type
    completed_at := none
    status := data.status.getD "Pending" }

/-- view/task.py TaskView.put: persist the task row first; then, when a
user_id field is present, resolve the requested ids against the users table;
when fewer rows resolve than ids were requested, answer 400 with the
requested ids that are not among the existing ids, in request order (the task
row stays persisted); otherwise add the assignments and answer 201. -/
def TaskView.put (db : DB) (data : CreateTaskData) : DB × CreateTaskResult :=
  let task := newTaskOf db data
  let db1 := { db with tasks := db.tasks ++ [task], next_task_id := db.next_task_id + 1 }
  match data.user_id with
  | none => (db1, .created task.task_serializer (db1.assignedIds task.id))
  | some f =>
    let user_ids := coerceUserIds f
    let users := db1.users.filter (fun u => u.id ∈ user_ids)
    if users.length ≠ user_ids.length then
      let existing_ids := users.map (fun u => u.id)
      let missing_ids := user_ids.filter (fun uid => uid ∉ existing_ids)
      (db1, .usersNotFound missing_ids)
    else
      let db2 := addAssignments db1 task.id (users.map (fun u => u.id))
      (db2, .created task.task_serializer (db2.assignedIds task.id))

/-- The user_ids field of the POST /tasks/{id}/assign/ body: either not a list
at all (rejected with 400) or a list of integer ids. -/
inductive UserIdsField where
  | notAList
  | ids (l : List Nat)
  deriving Repr, DecidableEq

/-- Responses of TaskView.post: 400 when user_ids is not a list, 404 with the
sorted missing ids, 200 with the assignment summary, or 500 from the blanket
exception handler — which is where the Http404 raised by get_object_or_404
for a missing task lands, its message becoming the error payload. -/
inductive AssignResult where
  | badRequest
  | usersNotFound (missing : List Nat)
  | assigned (task_id : Nat) (count : Nat) (assigned_users : List Nat)
  | serverError (msg : String)
  deriving Repr, DecidableEq

/-- HTTP status attached to each TaskView.post outcome in view/task.py. -/
def AssignResult.httpStatus : AssignResult → Nat
  | .badRequest => 400
  | .usersNotFound _ => 404
  | .assigned _ _ _ => 200
  | .serverError _ => 500

/-- Insert a number into a list, keeping ascending order: one step of the
sort underlying Python sorted on a set of ints. -/
def insertNat (x : Nat) : List Nat → List Nat
  | [] => [x]
  | y :: r => if x ≤ y then x :: y :: r else y :: insertNat x r

/-- Python sorted on integers: ascending order. -/
def sortNat (l : List Nat) : List Nat :=
  l.foldr insertNat []

/-- view/task.py TaskView.post: look the task up (get_object_or_404 — on a
miss the Http404 is caught by the blanket except and surfaces as a 500 with
the Http404 message); reject a non-list user_ids with 400; resolve the ids,
compute missing as the set difference of requested and found, and on a
non-empty difference answer 404 with the missing ids sorted ascending;
otherwise add the assignments idempotently and answer 200. -/
def TaskView.post (db : DB) (task_id : Nat) (body : UserIdsField) : DB × AssignResult :=
  match db.tasks.find? (fun t => t.id == task_id) with
  | none => (db, .serverError "No Task matches the given query.")
  | some task =>
    match body with
    | .notAList => (db, .badRequest)
    | .ids user_ids =>
      let users := db.users.filter (fun u => u.id ∈ user_ids)
      let found_ids := users.map (fun u => u.id)
      let missing_ids := (user_ids.filter (fun uid => uid ∉ found_ids)).dedup
      if missing_ids = [] then
        let db2 := addAssignments db task.id found_ids
        (db2, .assigned task_id users.length found_ids)
      else
        (db, .usersNotFound (sortNat missing_ids))

/-- One insertion step of the stable descending sort performed by the storage
engine for order_by on created_at descending: the new element (which precedes
the already sorted elements in insertion order) moves past strictly younger
rows and stops before the first row that is not younger, so rows with equal
created_at keep insertion order. -/
def insertByCreatedDesc (t : Task) : List Task → List Task
  | [] => [t]
  | u :: rest =>
    if t.created_at < u.created_at then u :: insertByCreatedDesc t rest
    else t :: u :: rest

/-- order_by on created_at descending over rows in insertion order: a stable
descending sort. -/
def orderByCreatedDesc : List Task → List Task
  | [] => []
  | t :: rest => insertByCreatedDesc t (orderByCreatedDesc rest)

/-- view/task.py line 178: the queryset of tasks whose assigned_users contain
the given user, ordered by created_at descending. -/
def userTasksQueryset (db : DB) (user_id : Nat) : List Task :=
  orderByCreatedDesc (db.tasks.filter (fun t => (t.id, user_id) ∈ db.assigned))

/-- The page and page_size query parameters of GET /users/{id}/tasks/ — page
defaults to 1 when absent (DRF get_page_number), page_size is optional. -/
structure PageQuery where
  page : Nat := 1
  page_size : Option Nat := none
  deriving Repr, DecidableEq

/-- DRF PageNumberPagination.get_page_size with the CustomPagination settings
page_size 10 and max_page_size 100: an absent or non-positive page_size query
parameter falls back to 10, a positive one is capped at 100. -/
def get_page_size (q : Option Nat) : Nat :=
  match q with
  | some v => if v = 0 then 10 else min v 100
  | none => 10

/-- django Paginator.num_pages with orphans 0 and allow_empty_first_page:
the ceiling of max 1 count divided by the page size, so always at least 1. -/
def num_pages (count per : Nat) : Nat :=
  (max 1 count + per - 1) / per

/-- The user summary bundled into the UserTasksView response: id, name,
email, is_admin. -/
structure UserSummary where
  id : Nat
  name : String
  email : String
  is_admin : Bool
  deriving Repr, DecidableEq

/-- Responses of UserTasksView.get: 404 when the user does not exist, 200
with the user summary, the serialized page of tasks and the pagination
metadata (total count and next and previous page indicators), or 500 from the
blanket exception handler — which is where the NotFound raised by the DRF
paginator for an out-of-range page lands. -/
inductive ListTasksResult where
  | userNotFound
  | ok (user : UserSummary) (tasks : List TaskRecord) (count : Nat)
       (has_next : Bool) (has_previous : Bool)
  | serverError (msg : String)
  deriving Repr, DecidableEq

/-- HTTP status attached to each UserTasksView.get outcome in view/task.py. -/
def ListTasksResult.httpStatus : ListTasksResult → Nat
  | .userNotFound => 404
  | .ok _ _ _ _ _ => 200
  | .serverError _ => 500

/-- Whether a UserTasksView.get outcome is the 200 success response. -/
def ListTasksResult.isSuccess : ListTasksResult → Bool
  | .ok _ _ _ _ _ => true
  | _ => false

/-- view/task.py UserTasksView.get: 404 when the user is missing; otherwise
take the ordered queryset of the user's tasks and paginate it with
CustomPagination — the django paginator raises for a page below 1 or beyond
num_pages, DRF turns that into NotFound with the Invalid page message, and
the blanket except returns it as a 500 Server error; in range, the response
carries the user summary, the serialized slice and the pagination
metadata. -/
def UserTasksView.get (db : DB) (user_id : Nat) (q : PageQuery) : ListTasksResult :=
  match db.users.find? (fun u => u.id == user_id) with
  | none => .userNotFound
  | some user =>
    let tasks := userTasksQueryset db user_id
    let page_size := get_page_size q.page_size
    let count := tasks.length
    let np := num_pages count page_size
    if q.page < 1 ∨ np < q.page then
      .serverError "Server error: Invalid page."
    else
      let items := (tasks.drop ((q.page - 1) * page_size)).take page_size
      .ok { id := user.id, name := user.name, email := user.email, is_admin := user.is_admin }
         (items.map Task.task_serializer) count
         (decide (q.page < np)) (decide (1 < q.page))

/- ----------------------------------------------------------------- -/
/- Orders and fixtures used by the verification                      -/
/- ----------------------------------------------------------------- -/

/-- The ordering the listing endpoint is claimed to produce: an earlier
element is strictly younger, or has equal created_at and a smaller id
(insertion order, since primary keys grow with insertion). -/
def taskOrd (a b : Task) : Prop :=
  b.created_at < a.created_at ∨ (b.created_at = a.created_at ∧ a.id < b.id)

instance : DecidableRel taskOrd := fun a b => by
  unfold taskOrd
  exact inferInstance

/-- Task rows listed with strictly increasing primary keys, i.e. in insertion
order. -/
def idIncreasing (l : List Task) : Prop :=
  l.Pairwise (fun a b => a.id < b.id)

instance : Decidable (idIncreasing l) := by
  unfold idIncreasing
  exact inferInstance

/-- A strictly ascending list of naturals. -/
def strictAsc (l : List Nat) : Prop :=
  l.Pairwise (fun a b => a < b)

instance : Decidable (strictAsc l) := by
  unfold strictAsc
  exact inferInstance

/-- Fixture: a persisted regular user with id 1. -/
def exU1 : User :=
  { id := 1, name := "alice", email := "alice@example.com", phone := ""
    password := "pbkdf2_sha256$pw1", date_joined := 0, updated_date := 0
    is_admin := false, is_staff := false, is_active := true, is_superadmin := false }

/-- Fixture: a persisted regular user with id 2. -/
def exU2 : User :=
  { exU1 with id := 2, name := "bob", email := "bob@example.com" }

/-- Fixture: a task created first (id 1, created_at 5). -/
def exT1 : Task :=
  { id := 1, name := "first", description := "d1", created_at := 5
    task_type := "Bug", completed_at := none, status := "Pending" }

/-- Fixture: a later task (id 2, created_at 7). -/
def exT2 : Task :=
  { exT1 with id := 2, created_at := 7 }

/-- Fixture: a task tying exT2 on created_at but inserted after it (id 3). -/
def exT3 : Task :=
  { exT1 with id := 3, created_at := 7 }

/-- Fixture: the oldest task, inserted last (id 4, created_at 3). -/
def exT4 : Task :=
  { exT1 with id := 4, created_at := 3 }

/-- Fixture database: users 1 and 2, task 1, no assignments yet. -/
def exDB : DB :=
  { users := [exU1, exU2], tasks := [exT1], assigned := []
    next_user_id := 3, next_task_id := 2, now := 9 }

/-- Fixture database for the listing claims: user 1 assigned to four tasks
whose created_at values contain a tie. -/
def exDB8 : DB :=
  { users := [exU1], tasks := [exT1, exT2, exT3, exT4]
    assigned := [(1, 1), (2, 1), (3, 1), (4, 1)]
    next_user_id := 2, next_task_id := 5, now := 9 }

/-- Fixture database: one user and no tasks at all. -/
def exDBnoTasks : DB :=
  { users := [exU1], tasks := [], assigned := []
    next_user_id := 2, next_task_id := 1, now := 0 }

/-- Fixture create_task body requesting assignees 1, 2 and the absent 999. -/
def exCreateData : CreateTaskData :=
  { name := "n", description := "d", task_type := "Bug", status := none
    user_id := some (.many [1, 2, 999]) }

/-- Fixture pagination query carrying only the defaults. -/
def exPageDefault : PageQuery := {}

/-- Fixture user summary for exU1 as the listing endpoint reports it. -/
def exU1Summary : UserSummary :=
  { id := 1, name := "alice", email := "alice@example.com", is_admin := false }

/-- Fixture create_task body with no assignees. -/
def exCreateDataPlain : CreateTaskData :=
  { name := "n", description := "d", task_type := "Bug", status := none
    user_id := none }

/-- Fixture user-creation body. -/
def exUserData1 : UserData :=
  { name := "carol", email := "Carol@Example.COM", phone := ""
    password := "pw", is_admin := false }

/-- Fixture user-creation body whose email normalizes to the same address as
exUserData1 (the domain part is compared case-insensitively). -/
def exUserData2 : UserData :=
  { name := "dave", email := "Carol@example.com", phone := ""
    password := "pw2", is_admin := false }

/-- Fixture user-creation body with an empty email. -/
def exEmptyEmailData : UserData :=
  { name := "x", email := "", phone := "", password := "p", is_admin := false }

/- ----------------------------------------------------------------- -/
/- Lemmas about the sorting helpers                                  -/
/- ----------------------------------------------------------------- -/

theorem insertNat_perm (x : Nat) (l : List Nat) : (insertNat x l).Perm (x :: l) := by
  induction l with
  | nil => simp [insertNat]
  | cons y r ih =>
    simp only [insertNat]
    by_cases h : x ≤ y
    · rw [if_pos h]
    · rw [if_neg h]
      exact (ih.cons y).trans (List.Perm.swap x y r)

theorem sortNat_perm (l : List Nat) : (sortNat l).Perm l := by
  induction l with
  | nil => simp [sortNat]
  | cons x r ih =>
    simp only [sortNat, List.foldr_cons]
    exact (insertNat_perm x _).trans (ih.cons x)

theorem insertNat_pairwise (x : Nat) (l : List Nat) (h : l.Pairwise (fun a b => a ≤ b)) :
    (insertNat x l).Pairwise (fun a b => a ≤ b) := by
  induction l with
  | nil => simp [insertNat]
  | cons y r ih =>
    rw [List.pairwise_cons] at h
    simp only [insertNat]
    by_cases hxy : x ≤ y
    · rw [if_pos hxy]
      rw [List.pairwise_cons]
      refine ⟨?_, List.pairwise_cons.mpr h⟩
      intro z hz
      rcases List.mem_cons.mp hz with rfl | hzr
      · exact hxy
      · exact Nat.le_trans hxy (h.1 z hzr)
    · rw [if_neg hxy]
      rw [List.pairwise_cons]
      refine ⟨?_, ih h.2⟩
      intro z hz
      rcases List.mem_cons.mp ((insertNat_perm x r).mem_iff.mp hz) with rfl | hzr
      · exact Nat.le_of_lt (Nat.lt_of_not_le hxy)
      · exact h.1 z hzr

theorem sortNat_pairwise (l : List Nat) : (sortNat l).Pairwise (fun a b => a ≤ b) := by
  induction l with
  | nil => simp [sortNat]
  | cons x r ih =>
    simp only [sortNat, List.foldr_cons]
    exact insertNat_pairwise x _ ih

theorem sortNat_pairwise_lt (l : List Nat) (h : l.Nodup) :
    (sortNat l).Pairwise (fun a b => a < b) := by
  have hs := sortNat_pairwise l
  have hn : (sortNat l).Pairwise (fun a b => a ≠ b) := ((sortNat_perm l).nodup_iff).mpr h
  exact (hs.and hn).imp (fun hab => Nat.lt_of_le_of_ne hab.1 hab.2)

theorem insertByCreatedDesc_perm (t : Task) (l : List Task) :
    (insertByCreatedDesc t l).Perm (t :: l) := by
  induction l with
  | nil => simp [insertByCreatedDesc]
  | cons u r ih =>
    simp only [insertByCreatedDesc]
    by_cases h : t.created_at < u.created_at
    · rw [if_pos h]
      exact (ih.cons u).trans (List.Perm.swap t u r)
    · rw [if_neg h]

theorem orderByCreatedDesc_perm (l : List Task) : (orderByCreatedDesc l).Perm l := by
  induction l with
  | nil => simp [orderByCreatedDesc]
  | cons t r ih =>
    simp only [orderByCreatedDesc]
    exact (insertByCreatedDesc_perm t _).trans (ih.cons t)

theorem insertByCreatedDesc_pairwise (t : Task) (s : List Task)
    (hs : s.Pairwise taskOrd) (hid : ∀ x ∈ s, t.id < x.id) :
    (insertByCreatedDesc t s).Pairwise taskOrd := by
  induction s with
  | nil => simp [insertByCreatedDesc]
  | cons u r ih =>
    rw [List.pairwise_cons] at hs
    simp only [insertByCreatedDesc]
    by_cases h : t.created_at < u.created_at
    · rw [if_pos h]
      rw [List.pairwise_cons]
      refine ⟨?_, ih hs.2 (fun x hx => hid x (List.mem_cons_of_mem u hx))⟩
      intro y hy
      rcases List.mem_cons.mp ((insertByCreatedDesc_perm t r).mem_iff.mp hy) with rfl | hyr
      · exact Or.inl h
      · exact hs.1 y hyr
    · rw [if_neg h]
      rw [List.pairwise_cons]
      refine ⟨?_, List.pairwise_cons.mpr hs⟩
      intro y hy
      have hca : u.created_at ≤ t.created_at := Nat.le_of_not_lt h
      rcases List.mem_cons.mp hy with rfl | hyr
      · have := hid y (List.mem_cons_self y r)
        unfold taskOrd
        omega
      · have h1 := hs.1 y hyr
        have h2 := hid y (List.mem_cons_of_mem u hyr)
        unfold taskOrd at h1 ⊢
        omega

theorem orderByCreatedDesc_pairwise (l : List Task) (h : idIncreasing l) :
    (orderByCreatedDesc l).Pairwise taskOrd := by
  unfold idIncreasing at h
  induction l with
  | nil => simp [orderByCreatedDesc]
  | cons t r ih =>
    rw [List.pairwise_cons] at h
    simp only [orderByCreatedDesc]
    refine insertByCreatedDesc_pairwise t _ (ih h.2) ?_
    intro x hx
    exact h.1 x ((orderByCreatedDesc_perm r).mem_iff.mp hx)

/- ----------------------------------------------------------------- -/
/- Lemmas about the many-to-many insertion                           -/
/- ----------------------------------------------------------------- -/

theorem mem_addPair (a : List (Nat × Nat)) (t u : Nat) (p : Nat × Nat) :
    p ∈ addPair a t u ↔ p ∈ a ∨ p = (t, u) := by
  unfold addPair
  by_cases h : (t, u) ∈ a
  · rw [if_pos h]
    exact ⟨Or.inl, fun hp => hp.elim id (fun e => e ▸ h)⟩
  · rw [if_neg h]
    simp

theorem foldl_addPair_mem_mono {a : List (Nat × Nat)} {t : Nat} (ids : List Nat)
    (p : Nat × Nat) (hp : p ∈ a) :
    p ∈ ids.foldl (fun acc u => addPair acc t u) a := by
  induction ids generalizing a with
  | nil => exact hp
  | cons u r ih => exact ih ((mem_addPair a t u p).mpr (Or.inl hp))

theorem mem_foldl_addPair {t : Nat} (ids : List Nat) (a : List (Nat × Nat))
    (u : Nat) (hu : u ∈ ids) :
    (t, u) ∈ ids.foldl (fun acc v => addPair acc t v) a := by
  induction ids generalizing a with
  | nil => cases hu
  | cons v r ih =>
    rcases List.mem_cons.mp hu with rfl | h
    · exact foldl_addPair_mem_mono r _ ((mem_addPair a t u _).mpr (Or.inr rfl))
    · exact ih _ h

theorem foldl_addPair_fixed {t : Nat} (ids : List Nat) (a : List (Nat × Nat))
    (h : ∀ u ∈ ids, (t, u) ∈ a) :
    ids.foldl (fun acc v => addPair acc t v) a = a := by
  induction ids with
  | nil => rfl
  | cons v r ih =>
    have hv : addPair a t v = a := by
      unfold addPair
      rw [if_pos (h v (List.mem_cons_self v r))]
    simp only [List.foldl_cons, hv]
    exact ih (fun u hu => h u (List.mem_cons_of_mem v hu))

theorem addPair_nodup (a : List (Nat × Nat)) (t u : Nat) (h : a.Nodup) :
    (addPair a t u).Nodup := by
  unfold addPair
  by_cases hm : (t, u) ∈ a
  · rw [if_pos hm]
    exact h
  · rw [if_neg hm]
    simp [List.nodup_append, h, hm]

theorem foldl_addPair_nodup (ids : List Nat) (a : List (Nat × Nat)) (t : Nat)
    (h : a.Nodup) :
    (ids.foldl (fun acc v => addPair acc t v) a).Nodup := by
  induction ids generalizing a with
  | nil => exact h
  | cons v r ih => exact ih _ (addPair_nodup a t v h)

/- ----------------------------------------------------------------- -/
/- Lemmas about id resolution against the users table                -/
/- ----------------------------------------------------------------- -/

theorem mem_resolved_iff (users : List User) (uids : List Nat) (x : Nat) (hx : x ∈ uids) :
    x ∈ (users.filter (fun u => u.id ∈ uids)).map (fun u => u.id)
      ↔ ∃ u, u ∈ users ∧ u.id = x := by
  simp only [List.mem_map, List.mem_filter, decide_eq_true_eq]
  constructor
  · rintro ⟨u, ⟨hu, _⟩, he⟩
    exact ⟨u, hu, he⟩
  · rintro ⟨u, hu, he⟩
    exact ⟨u, ⟨hu, he ▸ hx⟩, he⟩

theorem missing_filter_eq (users : List User) (uids : List Nat) :
    uids.filter
        (fun uid => uid ∉ (users.filter (fun u => u.id ∈ uids)).map (fun u => u.id))
      = uids.filter (fun uid => ∀ u ∈ users, u.id ≠ uid) := by
  apply List.filter_congr
  intro x hx
  rw [decide_eq_decide]
  rw [not_iff_comm]
  rw [mem_resolved_iff users uids x hx]
  push_neg
  constructor
  · rintro ⟨u, hu, he⟩
    exact ⟨u, hu, he⟩
  · rintro ⟨u, hu, he⟩
    exact ⟨u, hu, he⟩

/- ----------------------------------------------------------------- -/
/- Claim theorems                                                    -/
/- ----------------------------------------------------------------- -/

/-- Claim C1: when a create_task request carries assignee ids that resolve to
fewer persisted users than requested, the task row is nevertheless already
persisted, and the call fails at the assignment step with the Users-not-found
error (surfaced with HTTP status 400 on this endpoint) listing exactly the
requested ids that belong to no persisted user, with the order of the
requested list preserved. -/
theorem create_task_missing_users (db : DB) (data : CreateTaskData) (f : UserIdField)
    (hf : data.user_id = some f)
    (hlen : (db.users.filter (fun u => u.id ∈ coerceUserIds f)).length
              < (coerceUserIds f).length) :
    (TaskView.put db data).1.tasks = db.tasks ++ [newTaskOf db data] ∧
    (TaskView.put db data).2 =
      .usersNotFound ((coerceUserIds f).filter (fun uid => ∀ u ∈ db.users, u.id ≠ uid)) ∧
    ((coerceUserIds f).filter (fun uid => ∀ u ∈ db.users, u.id ≠ uid)).Sublist
      (coerceUserIds f) ∧
    ((TaskView.put db data).2).httpStatus = 400 := by
  have hne : (db.users.filter (fun u => u.id ∈ coerceUserIds f)).length
      ≠ (coerceUserIds f).length := Nat.ne_of_lt hlen
  simp only [TaskView.put, hf]
  rw [if_pos hne]
  refine ⟨rfl, ?_, List.filter_sublist _, rfl⟩
  rw [missing_filter_eq db.users (coerceUserIds f)]

/-- Witness for create_task_missing_users: on the fixture database with users
1 and 2, requesting assignees 1, 2 and 999 resolves only two users, and the
error lists exactly 999 while the task row is persisted. -/
theorem create_task_missing_users_witness :
    (exDB.users.filter (fun u => u.id ∈ coerceUserIds (.many [1, 2, 999]))).length
      < (coerceUserIds (.many [1, 2, 999])).length ∧
    (TaskView.put exDB exCreateData).2 = .usersNotFound [999] ∧
    (TaskView.put exDB exCreateData).1.tasks = exDB.tasks ++ [newTaskOf exDB exCreateData] := by
  have h := create_task_missing_users exDB exCreateData (.many [1, 2, 999]) rfl (by decide)
  refine ⟨by decide, ?_, h.1⟩
  rw [h.2.1]
  decide

/-- Claim C2: when an assign_users request contains ids that belong to no
persisted user, the call fails with the 404 Users-not-found response, leaves
the database unchanged, and the error payload lists exactly the missing ids
in ascending sorted order. -/
theorem assign_users_missing_sorted (db : DB) (task_id : Nat) (task : Task) (L : List Nat)
    (htask : db.tasks.find? (fun t => t.id == task_id) = some task)
    (hmiss : ∃ uid, uid ∈ L ∧ ∀ u ∈ db.users, u.id ≠ uid) :
    ∃ m, TaskView.post db task_id (.ids L) = (db, .usersNotFound m) ∧
      strictAsc m ∧
      (∀ x, x ∈ m ↔ (x ∈ L ∧ ∀ u ∈ db.users, u.id ≠ x)) ∧
      (AssignResult.usersNotFound m).httpStatus = 404 := by
  obtain ⟨uid, huidL, huid⟩ := hmiss
  have hfe : L.filter
      (fun v => v ∉ (db.users.filter (fun u => u.id ∈ L)).map (fun u => u.id))
      = L.filter (fun v => ∀ u ∈ db.users, u.id ≠ v) :=
    missing_filter_eq db.users L
  have hmem : uid ∈ (L.filter
      (fun v => v ∉ (db.users.filter (fun u => u.id ∈ L)).map (fun u => u.id))).dedup := by
    rw [hfe, List.mem_dedup, List.mem_filter]
    exact ⟨huidL, by simpa using huid⟩
  have hnil : (L.filter
      (fun v => v ∉ (db.users.filter (fun u => u.id ∈ L)).map (fun u => u.id))).dedup
      ≠ [] := List.ne_nil_of_mem hmem
  refine ⟨sortNat ((L.filter
      (fun v => v ∉ (db.users.filter (fun u => u.id ∈ L)).map (fun u => u.id))).dedup),
    ?_, ?_, ?_, rfl⟩
  · simp only [TaskView.post, htask]
    rw [if_neg hnil]
  · exact sortNat_pairwise_lt _ (List.nodup_dedup _)
  · intro x
    rw [(sortNat_perm _).mem_iff, List.mem_dedup, hfe, List.mem_filter]
    simp

/-- Witness for assign_users_missing_sorted: on the fixture database, asking
to assign users 999, 2, 5 and again 2 to task 1 fails with 404 listing
exactly 5 and 999, ascending and deduplicated. -/
theorem assign_users_missing_sorted_witness :
    exDB.tasks.find? (fun t => t.id == 1) = some exT1 ∧
    strictAsc [5, 999] ∧
    TaskView.post exDB 1 (.ids [999, 2, 5, 2]) = (exDB, .usersNotFound [5, 999]) := by
  obtain ⟨m, heq, hasc, hchar, hst⟩ :=
    assign_users_missing_sorted exDB 1 exT1 [999, 2, 5, 2] (by decide)
      ⟨999, by decide, by decide⟩
  have h2 : TaskView.post exDB 1 (.ids [999, 2, 5, 2]) = (exDB, .usersNotFound [5, 999]) := by
    decide
  have h4 : AssignResult.usersNotFound m = AssignResult.usersNotFound [5, 999] :=
    congrArg Prod.snd (heq.symm.trans h2)
  have h5 : m = [5, 999] := by injection h4
  exact ⟨by decide, h5 ▸ hasc, h2⟩

/-- When the task exists and every requested id has a persisted user,
TaskView.post adds the found assignments and answers 200 with the found ids
and their count. -/
theorem assign_users_all_found (db : DB) (T : Nat) (task : Task) (L : List Nat)
    (htask : db.tasks.find? (fun t => t.id == T) = some task)
    (husers : ∀ uid ∈ L, ∃ u ∈ db.users, u.id = uid) :
    TaskView.post db T (.ids L)
      = (addAssignments db task.id ((db.users.filter (fun u => u.id ∈ L)).map (fun u => u.id)),
         .assigned T (db.users.filter (fun u => u.id ∈ L)).length
           ((db.users.filter (fun u => u.id ∈ L)).map (fun u => u.id))) := by
  have hfe := missing_filter_eq db.users L
  have hnone : L.filter (fun v => ∀ u ∈ db.users, u.id ≠ v) = [] := by
    rw [List.filter_eq_nil_iff]
    intro v hv
    simp only [decide_eq_true_eq]
    push_neg
    obtain ⟨u, hu, he⟩ := husers v hv
    exact ⟨u, hu, he⟩
  simp only [TaskView.post, htask]
  simp only [hfe.trans hnone, List.dedup_nil, if_pos]

/-- Applying addAssignments twice with the same task and id list is the same
as applying it once: the second pass finds every pair already present. -/
theorem addAssignments_idem (db : DB) (t : Nat) (ids : List Nat) :
    addAssignments (addAssignments db t ids) t ids = addAssignments db t ids := by
  unfold addAssignments
  congr 1
  exact foldl_addPair_fixed ids _ (fun u hu => mem_foldl_addPair ids db.assigned u hu)

/-- Claim C3: assigning the same list of existing users to an existing task a
second time changes nothing — the association table after two calls equals
the table after one call — and membership is never duplicated. -/
theorem assign_users_idempotent (db : DB) (T : Nat) (task : Task) (L : List Nat)
    (htask : db.tasks.find? (fun t => t.id == T) = some task)
    (husers : ∀ uid ∈ L, ∃ u ∈ db.users, u.id = uid)
    (hnd : db.assigned.Nodup) :
    (TaskView.post (TaskView.post db T (.ids L)).1 T (.ids L)).1.assigned
        = (TaskView.post db T (.ids L)).1.assigned ∧
    (TaskView.post db T (.ids L)).1.assigned.Nodup := by
  have h1 := assign_users_all_found db T task L htask husers
  have h2 := assign_users_all_found
    (addAssignments db task.id ((db.users.filter (fun u => u.id ∈ L)).map (fun u => u.id)))
    T task L htask husers
  constructor
  · rw [h1]
    simp only [h2]
    exact congrArg DB.assigned
      (addAssignments_idem db task.id ((db.users.filter (fun u => u.id ∈ L)).map (fun u => u.id)))
  · rw [h1]
    exact foldl_addPair_nodup _ db.assigned task.id hnd

/-- Witness for assign_users_idempotent: on the fixture database, assigning
users 1 and 2 to task 1 twice leaves the association table produced by the
first call, with no duplicate membership. -/
theorem assign_users_idempotent_witness :
    exDB.assigned.Nodup ∧
    (TaskView.post (TaskView.post exDB 1 (.ids [1, 2])).1 1 (.ids [1, 2])).1.assigned
        = (TaskView.post exDB 1 (.ids [1, 2])).1.assigned ∧
    (TaskView.post exDB 1 (.ids [1, 2])).1.assigned.Nodup := by
  have h := assign_users_idempotent exDB 1 exT1 [1, 2] (by decide) (by decide) (by decide)
  exact ⟨by decide, h.1, h.2⟩

/-- Claim C4 counterexample: on the fixture database with user 1 persisted
and no tasks, requesting page 999 yields the 500 Server-error response — not
a success with an empty task list. -/
theorem list_user_tasks_beyond_range_cex :
    (exDBnoTasks.users.find? (fun u => u.id == 1)).isSome = true ∧
    UserTasksView.get exDBnoTasks 1 { page := 999 }
      = .serverError "Server error: Invalid page." ∧
    (UserTasksView.get exDBnoTasks 1 { page := 999 }).isSuccess = false := by
  exact ⟨rfl, rfl, rfl⟩

/-- Claim C4 amended: for an existing user, a page beyond the last page makes
UserTasksView.get answer the 500 Server-error Invalid-page response (the
NotFound the DRF paginator raises is swallowed by the view's blanket
exception handler), not a success with an empty task list. -/
theorem list_user_tasks_beyond_range_500 (db : DB) (uid : Nat) (user : User) (q : PageQuery)
    (hu : db.users.find? (fun u => u.id == uid) = some user)
    (hp : num_pages (userTasksQueryset db uid).length (get_page_size q.page_size) < q.page) :
    UserTasksView.get db uid q = .serverError "Server error: Invalid page." ∧
    (UserTasksView.get db uid q).httpStatus = 500 := by
  have h : UserTasksView.get db uid q = .serverError "Server error: Invalid page." := by
    simp only [UserTasksView.get, hu]
    rw [if_pos (Or.inr hp)]
  refine ⟨h, ?_⟩
  rw [h]
  rfl

/-- Witness for list_user_tasks_beyond_range_500: user 1 exists, page 999 is
beyond the last page, and the response is the 500 Invalid-page error. -/
theorem list_user_tasks_beyond_range_500_witness :
    exDBnoTasks.users.find? (fun u => u.id == 1) = some exU1 ∧
    num_pages (userTasksQueryset exDBnoTasks 1).length
      (get_page_size (PageQuery.page_size { page := 999 })) < 999 ∧
    UserTasksView.get exDBnoTasks 1 { page := 999 }
      = .serverError "Server error: Invalid page." := by
  refine ⟨by decide, by decide, ?_⟩
  exact (list_user_tasks_beyond_range_500 exDBnoTasks 1 exU1 { page := 999 }
    (by decide) (by decide)).1

/-- Claim C5 evaluation: a task_id that references no Task does not produce a
404 NotFound response: the Http404 raised by get_object_or_404 is caught by
the view's blanket exception handler and returned as a 500 server error with
the raw exception text, whatever user_ids contains. -/
theorem assign_users_missing_task_is_500 :
    TaskView.post exDBnoTasks 1 (.ids [])
      = (exDBnoTasks, .serverError "No Task matches the given query.") ∧
    (TaskView.post exDBnoTasks 1 (.ids [])).2.httpStatus = 500 ∧
    (TaskView.post exDBnoTasks 777 (.ids [1, 999])).2.httpStatus = 500 ∧
    (TaskView.post exDBnoTasks 777 UserIdsField.notAList).2.httpStatus = 500 := by
  exact ⟨rfl, rfl, rfl, rfl⟩

/-- Claim C6: creating a user with an empty email always fails — both the
regular and the admin path raise the empty-email ValueError before any row is
built, the blanket handler returns it as an error response, and the database
is unchanged, so no User row is ever persisted. -/
theorem create_user_empty_email (db : DB) (data : UserData) (he : data.email = "") :
    UserView.put db data = (db, .serverError "Email field cannot be empty") ∧
    (UserView.put db data).1.users = db.users := by
  have h : UserView.put db data = (db, .serverError "Email field cannot be empty") := by
    cases hadm : data.is_admin <;>
      simp [UserView.put, UserManager.create_superuser, UserManager.create_user, hadm, he]
  exact ⟨h, by rw [h]⟩

/-- Witness for create_user_empty_email: the fixture body with an empty email
fails and persists nothing. -/
theorem create_user_empty_email_witness :
    exEmptyEmailData.email = "" ∧
    UserView.put exDBnoTasks exEmptyEmailData
      = (exDBnoTasks, .serverError "Email field cannot be empty") :=
  ⟨rfl, (create_user_empty_email exDBnoTasks exEmptyEmailData rfl).1⟩

/-- Claim C7: two user-creation calls whose emails normalize to the same
address — the first persists one row; the second fails with the 409 conflict
response (ConflictError, from the Duplicate-entry IntegrityError raised by
the unique email constraint), persists nothing, and exactly one row with that
normalized email remains. -/
theorem duplicate_email_conflict (db : DB) (d1 d2 : UserData)
    (h1a : d1.is_admin = false) (h2a : d2.is_admin = false)
    (he1 : d1.email ≠ "") (he2 : d2.email ≠ "")
    (hfresh : ∀ u ∈ db.users, u.email ≠ normalize_email d1.email)
    (hsame : normalize_email d2.email = normalize_email d1.email) :
    (UserView.put (UserView.put db d1).1 d2).2 = .conflict ∧
    ((UserView.put (UserView.put db d1).1 d2).2).httpStatus = 409 ∧
    (UserView.put (UserView.put db d1).1 d2).1 = (UserView.put db d1).1 ∧
    ((UserView.put db d1).1.users.filter
        (fun u => u.email = normalize_email d1.email)).length = 1 := by
  have hnex1 : ¬ ∃ x ∈ db.users, x.email = normalize_email d1.email := by
    rintro ⟨x, hx, he⟩
    exact hfresh x hx he
  have hput1 : UserView.put db d1 =
      ({ db with
          users := db.users ++
            [{ id := db.next_user_id, name := d1.name, email := normalize_email d1.email
               phone := d1.phone, password := set_password d1.password
               date_joined := db.now, updated_date := db.now
               is_admin := false, is_staff := false, is_active := true
               is_superadmin := false }]
          next_user_id := db.next_user_id + 1 },
        .created (User.user_serializer
          { id := db.next_user_id, name := d1.name, email := normalize_email d1.email
            phone := d1.phone, password := set_password d1.password
            date_joined := db.now, updated_date := db.now
            is_admin := false, is_staff := false, is_active := true
            is_superadmin := false })) := by
    simp [UserView.put, UserManager.create_user, saveUser, h1a, he1, hnex1]
  have hex2 : ∃ x ∈ (UserView.put db d1).1.users, x.email = normalize_email d2.email := by
    rw [hput1]
    refine ⟨{ id := db.next_user_id, name := d1.name, email := normalize_email d1.email
              phone := d1.phone, password := set_password d1.password
              date_joined := db.now, updated_date := db.now
              is_admin := false, is_staff := false, is_active := true
              is_superadmin := false }, ?_, ?_⟩
    · simp
    · exact hsame.symm
  have hput2 : UserView.put (UserView.put db d1).1 d2 = ((UserView.put db d1).1, .conflict) := by
    generalize hgen : (UserView.put db d1).1 = db1 at hex2 ⊢
    simp [UserView.put, UserManager.create_user, saveUser, h2a, he2, hex2]
  have hcount : ((UserView.put db d1).1.users.filter
      (fun u => u.email = normalize_email d1.email)).length = 1 := by
    rw [hput1]
    simp only [List.filter_append]
    have hz : db.users.filter (fun u => u.email = normalize_email d1.email) = [] := by
      rw [List.filter_eq_nil_iff]
      intro u hu
      simp only [decide_eq_true_eq]
      exact hfresh u hu
    rw [hz]
    simp
  refine ⟨by rw [hput2], ?_, by rw [hput2], hcount⟩
  rw [hput2]
  rfl

/-- Witness for duplicate_email_conflict: the two fixture bodies share a
normalized email; the second creation conflicts and a single matching row
remains. -/
theorem duplicate_email_conflict_witness :
    normalize_email exUserData2.email = normalize_email exUserData1.email ∧
    (UserView.put (UserView.put exDBnoTasks exUserData1).1 exUserData2).2 = .conflict ∧
    ((UserView.put exDBnoTasks exUserData1).1.users.filter
        (fun u => u.email = normalize_email exUserData1.email)).length = 1 := by
  have h := duplicate_email_conflict exDBnoTasks exUserData1 exUserData2 rfl rfl
    (by decide) (by decide) (by decide) (by decide)
  exact ⟨by decide, h.1, h.2.2.2⟩

/-- Claim C8: when the task rows carry strictly increasing primary keys
(insertion order), the listing queryset contains exactly the tasks on which
the user is an assignee, ordered by created_at descending with ties broken
stably by insertion order. -/
theorem list_user_tasks_ordering (db : DB) (uid : Nat) (hids : idIncreasing db.tasks) :
    (∀ t, t ∈ userTasksQueryset db uid ↔ (t ∈ db.tasks ∧ (t.id, uid) ∈ db.assigned)) ∧
    (userTasksQueryset db uid).Pairwise taskOrd := by
  constructor
  · intro t
    unfold userTasksQueryset
    rw [(orderByCreatedDesc_perm _).mem_iff, List.mem_filter]
    simp
  · unfold userTasksQueryset
    refine orderByCreatedDesc_pairwise _ ?_
    unfold idIncreasing at hids ⊢
    exact hids.sublist (List.filter_sublist _)

/-- Witness for list_user_tasks_ordering: on the fixture database the
queryset for user 1 is exT2, exT3 (tying on created_at 7, kept in insertion
order), then exT1, then exT4. -/
theorem list_user_tasks_ordering_witness :
    idIncreasing exDB8.tasks ∧
    (userTasksQueryset exDB8 1).Pairwise taskOrd ∧
    userTasksQueryset exDB8 1 = [exT2, exT3, exT1, exT4] := by
  refine ⟨by decide, (list_user_tasks_ordering exDB8 1 (by decide)).2, by decide⟩

/-- Claim C9: user serialization returns every model field except the
password hash, and does not depend on the stored password hash: two users
differing only in password serialize to identical records. -/
theorem user_serializer_hides_password :
    (∀ (u : User) (p : String),
      User.user_serializer { u with password := p } = User.user_serializer u) ∧
    (∀ u : User,
      (User.user_serializer u).id = u.id ∧
      (User.user_serializer u).name = u.name ∧
      (User.user_serializer u).email = u.email ∧
      (User.user_serializer u).phone = u.phone ∧
      (User.user_serializer u).date_joined = u.date_joined ∧
      (User.user_serializer u).updated_date = u.updated_date ∧
      (User.user_serializer u).is_admin = u.is_admin ∧
      (User.user_serializer u).is_staff = u.is_staff ∧
      (User.user_serializer u).is_active = u.is_active ∧
      (User.user_serializer u).is_superadmin = u.is_superadmin) :=
  ⟨fun _ _ => rfl, fun _ => ⟨rfl, rfl, rfl, rfl, rfl, rfl, rfl, rfl, rfl, rfl⟩⟩

/-- Claim C10: task serialization yields exactly id, name, description,
created_at, completed_at and status; it does not depend on task_type and
takes no assignment information, and both the creation response and the
listing response build their task records through it, so neither ever
includes the task type. -/
theorem task_serializer_fields :
    (∀ (t : Task) (ty : String),
      Task.task_serializer { t with task_type := ty } = Task.task_serializer t) ∧
    (∀ t : Task,
      (Task.task_serializer t).id = t.id ∧
      (Task.task_serializer t).name = t.name ∧
      (Task.task_serializer t).description = t.description ∧
      (Task.task_serializer t).created_at = t.created_at ∧
      (Task.task_serializer t).completed_at = t.completed_at ∧
      (Task.task_serializer t).status = t.status) ∧
    (∀ (db : DB) (data : CreateTaskData) (r : TaskRecord) (ids : List Nat),
      (TaskView.put db data).2 = .created r ids →
      r = Task.task_serializer (newTaskOf db data)) ∧
    (∀ (db : DB) (uid : Nat) (q : PageQuery) (us : UserSummary) (ts : List TaskRecord)
        (c : Nat) (hn hp : Bool),
      UserTasksView.get db uid q = .ok us ts c hn hp →
      ts = (((userTasksQueryset db uid).drop ((q.page - 1) * get_page_size q.page_size)).take
              (get_page_size q.page_size)).map Task.task_serializer) := by
  refine ⟨fun _ _ => rfl,
    fun _ => ⟨rfl, rfl, rfl, rfl, rfl, rfl⟩, ?_, ?_⟩
  · intro db data r ids h
    simp only [TaskView.put] at h
    split at h
    · simp only [CreateTaskResult.created.injEq] at h
      exact h.1.symm
    · split at h
      · simp at h
      · simp only [CreateTaskResult.created.injEq] at h
        exact h.1.symm
  · intro db uid q us ts c hn hp h
    simp only [UserTasksView.get] at h
    split at h
    · exact absurd h (by simp)
    · split at h
      · exact absurd h (by simp)
      · injection h with h1 h2 h3 h4 h5
        exact h2.symm

/-- Witness for task_serializer_fields: on the fixture database a created
task serializes to the expected password-free, type-free record, and the
listing records for user 1 are exactly the serialized page of the ordered
queryset. -/
theorem task_serializer_fields_witness :
    ({ id := 2, name := "n", description := "d", created_at := 9, completed_at := none,
        status := "Pending" } : TaskRecord)
      = Task.task_serializer (newTaskOf exDB exCreateDataPlain) ∧
    ([{ id := 2, name := "first", description := "d1", created_at := 7, completed_at := none,
        status := "Pending" },
      { id := 3, name := "first", description := "d1", created_at := 7, completed_at := none,
        status := "Pending" },
      { id := 1, name := "first", description := "d1", created_at := 5, completed_at := none,
        status := "Pending" },
      { id := 4, name := "first", description := "d1", created_at := 3, completed_at := none,
        status := "Pending" }] : List TaskRecord)
      = (((userTasksQueryset exDB8 1).drop
            ((exPageDefault.page - 1) * get_page_size exPageDefault.page_size)).take
          (get_page_size exPageDefault.page_size)).map Task.task_serializer := by
  constructor
  · exact task_serializer_fields.2.2.1 exDB exCreateDataPlain _ [] (by decide)
  · exact task_serializer_fields.2.2.2 exDB8 1 exPageDefault exU1Summary _ 4 false false
      (by decide)

end TaskManager
